import Mathlib

/-!
Verification of the firefly-swarm simulation core
(`sims/firefly-algorithms/js/firefly-algorithm.js`, `sims/js/firefly.js`,
`sims/js/objective-functions.js`, and the two-phase flash tick of the
renderer).  JavaScript numbers are modelled as real numbers; every call to
`Math.random()` is modelled by an explicitly injected random value, so each
operation takes the random inputs it consumes as extra arguments.
A JavaScript runtime fault (property access on `undefined`) is modelled by
an `Option` result being `none`.
-/

namespace FireflySim

noncomputable section

/-- Rectangular search bounds `{xMin, xMax, yMin, yMax}`. -/
structure Domain where
  xMin : ℝ
  xMax : ℝ
  yMin : ℝ
  yMax : ℝ

/-- An entry of the objective-function registry: a named 2-D scalar
function with its domain, known optima and minimize flag. -/
structure ObjectiveFn where
  name : String
  fn : ℝ → ℝ → ℝ
  domain : Domain
  optima : List (ℝ × ℝ × ℝ)
  minimize : Bool

/-- Michalewicz (m = 10), from `objective-functions.js`. -/
def michalewicz : ObjectiveFn where
  name := "Michalewicz"
  fn := fun x y =>
    -(Real.sin x * (Real.sin (x * x / Real.pi)) ^ (2 * 10) +
      Real.sin y * (Real.sin (2 * y * y / Real.pi)) ^ (2 * 10))
  domain := ⟨0, Real.pi, 0, Real.pi⟩
  optima := [(2.20, 1.57, -1.801)]
  minimize := true

/-- Rastrigin (A = 10), from `objective-functions.js`. -/
def rastrigin : ObjectiveFn where
  name := "Rastrigin"
  fn := fun x y =>
    10 * 2 + (x * x - 10 * Real.cos (2 * Real.pi * x)) +
      (y * y - 10 * Real.cos (2 * Real.pi * y))
  domain := ⟨-5.12, 5.12, -5.12, 5.12⟩
  optima := [(0, 0, 0)]
  minimize := true

/-- Rosenbrock (a = 1, b = 100), from `objective-functions.js`. -/
def rosenbrock : ObjectiveFn where
  name := "Rosenbrock"
  fn := fun x y => (1 - x) ^ 2 + 100 * (y - x * x) ^ 2
  domain := ⟨-2, 2, -1, 3⟩
  optima := [(1, 1, 0)]
  minimize := true

/-- Himmelblau, from `objective-functions.js`. -/
def himmelblau : ObjectiveFn where
  name := "Himmelblau"
  fn := fun x y => (x * x + y - 11) ^ 2 + (x + y * y - 7) ^ 2
  domain := ⟨-5, 5, -5, 5⟩
  optima := [(3, 2, 0), (-2.805118, 3.131312, 0), (-3.779310, -3.283186, 0),
             (3.584428, -1.848126, 0)]
  minimize := true

/-- Sphere, from `objective-functions.js`. -/
def sphere : ObjectiveFn where
  name := "Sphere"
  fn := fun x y => x * x + y * y
  domain := ⟨-5, 5, -5, 5⟩
  optima := [(0, 0, 0)]
  minimize := true

/-- The string-keyed registry `objectiveFunctions`; an unregistered key
yields `none` (JavaScript: the lookup yields `undefined`). -/
def objectiveFunctions (k : String) : Option ObjectiveFn :=
  if k = "michalewicz" then some michalewicz
  else if k = "rastrigin" then some rastrigin
  else if k = "rosenbrock" then some rosenbrock
  else if k = "himmelblau" then some himmelblau
  else if k = "sphere" then some sphere
  else none

/-- Gender of a firefly. -/
inductive Gender where
  | male : Gender
  | female : Gender
deriving DecidableEq

/-- The four `Math.random()` draws consumed by the `Firefly` constructor:
gender choice, initial flash phase, flash interval, flash duration. -/
structure FlashInit where
  genderR : ℝ
  phaseR : ℝ
  intervalR : ℝ
  durationR : ℝ

/-- One firefly (class `Firefly` of `firefly.js`).  `value` is set by
`evaluate()`; the trail stores up to `maxTrailLength` past positions. -/
structure Firefly where
  x : ℝ
  y : ℝ
  objectiveFunction : ObjectiveFn
  value : ℝ
  brightness : ℝ
  trail : List (ℝ × ℝ)
  maxTrailLength : ℕ
  gender : Gender
  flashPhase : ℝ
  flashInterval : ℝ
  flashDuration : ℝ
  isFlashing : Bool
  flashIntensity : ℝ
  responseDelay : ℝ
  isResponding : Bool

/-- The `Firefly` constructor: evaluates the objective at `(x, y)`,
draws gender with probability 1/2, a phase offset in `[0, 6000)`, a
gender-dependent flash interval and a duration in `[150, 250)`. -/
def construct (x y : ℝ) (F : ObjectiveFn) (fi : FlashInit) : Firefly :=
  let gender := if fi.genderR < 0.5 then Gender.male else Gender.female
  { x := x
    y := y
    objectiveFunction := F
    value := F.fn x y
    brightness := -(F.fn x y)
    trail := []
    maxTrailLength := 20
    gender := gender
    flashPhase := fi.phaseR * 6000
    flashInterval :=
      if gender = Gender.male then 1500 + fi.intervalR * 1500
      else 3000 + fi.intervalR * 3000
    flashDuration := 150 + fi.durationR * 100
    isFlashing := false
    flashIntensity := 0
    responseDelay := 0
    isResponding := false }

/-- `evaluate()`: recompute `value` and `brightness` at the current position. -/
def evaluate (f : Firefly) : Firefly :=
  { f with
    value := f.objectiveFunction.fn f.x f.y
    brightness := -(f.objectiveFunction.fn f.x f.y) }

/-- `distanceTo(other)`: Euclidean distance. -/
def distanceTo (f g : Firefly) : ℝ :=
  Real.sqrt ((f.x - g.x) * (f.x - g.x) + (f.y - g.y) * (f.y - g.y))

/-- `clampToDomain(domain)`: per-axis clamp to the domain bounds. -/
def clampToDomain (dom : Domain) (f : Firefly) : Firefly :=
  { f with
    x := max dom.xMin (min dom.xMax f.x)
    y := max dom.yMin (min dom.yMax f.y) }

/-- `addTrailPoint()`: push the current position, evicting the oldest
entry once the trail exceeds `maxTrailLength`. -/
def addTrailPoint (f : Firefly) : Firefly :=
  let t := f.trail ++ [(f.x, f.y)]
  { f with trail := if f.maxTrailLength < t.length then t.drop 1 else t }

/-- `moveTowards(other, beta0, gamma, alpha, domain)`; `u` is the pair of
`Math.random()` draws for the x- and y-noise. -/
def moveTowards (self other : Firefly) (beta0 gamma alpha : ℝ) (dom : Domain)
    (u : ℝ × ℝ) : Firefly :=
  let f1 := addTrailPoint self
  let r := distanceTo self other
  let beta := beta0 * Real.exp (-gamma * (r * r))
  let f2 :=
    { f1 with
      x := f1.x + beta * (other.x - self.x) +
        alpha * (dom.xMax - dom.xMin) * (u.1 - 0.5)
      y := f1.y + beta * (other.y - self.y) +
        alpha * (dom.yMax - dom.yMin) * (u.2 - 0.5) }
  evaluate (clampToDomain dom f2)

/-- `randomWalk(alpha, domain)`; `u` is the pair of noise draws. -/
def randomWalk (self : Firefly) (alpha : ℝ) (dom : Domain) (u : ℝ × ℝ) : Firefly :=
  let f1 := addTrailPoint self
  let f2 :=
    { f1 with
      x := f1.x + alpha * (dom.xMax - dom.xMin) * (u.1 - 0.5)
      y := f1.y + alpha * (dom.yMax - dom.yMin) * (u.2 - 0.5) }
  evaluate (clampToDomain dom f2)

/-- `updateFlash(deltaTime)`: response countdown, then natural phase
accumulation, then the asymmetric flash envelope. -/
def updateFlash (dt : ℝ) (f : Firefly) : Firefly :=
  let f1 :=
    if f.isResponding = true ∧ 0 < f.responseDelay then
      let rd := f.responseDelay - dt
      if rd ≤ 0 then
        { f with isFlashing := true, flashPhase := 0, responseDelay := 0 }
      else { f with responseDelay := rd }
    else f
  let f2 :=
    if ¬(f1.isResponding = true) ∨ f1.responseDelay ≤ 0 then
      let ph := f1.flashPhase + dt
      if f1.flashInterval ≤ ph then
        { f1 with isFlashing := true, flashPhase := 0 }
      else { f1 with flashPhase := ph }
    else f1
  if f2.isFlashing = true then
    let t := f2.flashPhase / f2.flashDuration
    if t < 0.2 then { f2 with flashIntensity := t / 0.2 }
    else if t < 1 then
      { f2 with flashIntensity := Real.exp (-3 * (t - 0.2)) }
    else
      { f2 with isFlashing := false, flashIntensity := 0, isResponding := false }
  else f2

/-- A placeholder element for (always in-range) list indexing. -/
def dfltFirefly : Firefly :=
  construct 0 0 sphere ⟨0, 0, 0, 0⟩

/-- The loop body test of `checkForNearbyFlash`: index `j` holds a
flashing male other than the scanning agent, bright (intensity above
0.5) and within the response distance `rd`. -/
def nearbyMale (fs : List Firefly) (i : ℕ) (self : Firefly) (rd : ℝ)
    (j : ℕ) : Bool :=
  decide (j ≠ i) && decide ((fs.getD j dfltFirefly).gender = Gender.male) &&
  decide ((0.5 : ℝ) < (fs.getD j dfltFirefly).flashIntensity) &&
  decide (distanceTo self (fs.getD j dfltFirefly) < rd)

/-- `checkForNearbyFlash(fireflies, domain)` for the agent at index `i`
(JavaScript identifies `this` inside the passed array by reference;
here by index).  `u` is the `Math.random()` draw for the response delay.
Returns the (possibly) updated agent; no other agent is modified.
Every index satisfying `nearbyMale` triggers the identical update, so
the first match of the source's scan is modelled by `find?`. -/
def checkForNearbyFlash (fs : List Firefly) (i : ℕ) (dom : Domain) (u : ℝ) :
    Firefly :=
  let self := fs.getD i dfltFirefly
  if self.gender ≠ Gender.female ∨ self.isFlashing = true ∨
      self.isResponding = true then self
  else if self.flashInterval - self.flashPhase < 500 then self
  else
    let rd := 0.2 * max (dom.xMax - dom.xMin) (dom.yMax - dom.yMin)
    match (List.range fs.length).find? (nearbyMale fs i self rd) with
    | some _ => { self with responseDelay := 400 + u * 200, isResponding := true }
    | none => self

/-- `clone()`: construct a fresh firefly at the same position (consuming
one `FlashInit` worth of random draws) and then overwrite every
randomized field with the original's values.  The constructor leaves the
trail empty and `clone` never copies it. -/
def clone (fi : FlashInit) (f : Firefly) : Firefly :=
  { construct f.x f.y f.objectiveFunction fi with
    gender := f.gender
    value := f.value
    brightness := f.brightness
    flashPhase := f.flashPhase
    flashInterval := f.flashInterval
    flashDuration := f.flashDuration
    isFlashing := f.isFlashing
    flashIntensity := f.flashIntensity
    responseDelay := f.responseDelay
    isResponding := f.isResponding }

/-- Algorithm parameters `{n, gamma, beta0, alpha, functionKey}`. -/
structure Params where
  n : ℕ
  gamma : ℝ
  beta0 : ℝ
  alpha : ℝ
  functionKey : String

/-- A partial parameter record as passed to `setParams`; absent fields
are `none` (JavaScript: keys missing from the object literal). -/
structure ParamsPatch where
  n : Option ℕ
  gamma : Option ℝ
  beta0 : Option ℝ
  alpha : Option ℝ
  functionKey : Option String

/-- The object spread `{...params, ...patch}`. -/
def mergeParams (p : Params) (q : ParamsPatch) : Params :=
  { n := q.n.getD p.n
    gamma := q.gamma.getD p.gamma
    beta0 := q.beta0.getD p.beta0
    alpha := q.alpha.getD p.alpha
    functionKey := q.functionKey.getD p.functionKey }

/-- State of class `FireflyAlgorithm`. -/
structure Swarm where
  params : Params
  generation : ℕ
  fireflies : List Firefly
  bestFirefly : Option Firefly
  objectiveFunction : ObjectiveFn

/-- The random draws consumed when constructing one random firefly:
uniform x- and y-position draws plus the constructor's own draws. -/
structure InitRand where
  ux : ℝ
  uy : ℝ
  fi : FlashInit

/-- One firefly at a domain-uniform random position, as built by
`initialize()` and by population growth in `adjustPopulation`. -/
def mkRandomFirefly (dom : Domain) (F : ObjectiveFn) (r : InitRand) : Firefly :=
  construct (dom.xMin + r.ux * (dom.xMax - dom.xMin))
    (dom.yMin + r.uy * (dom.yMax - dom.yMin)) F r.fi

/-- The loop of `updateBest()`: running minimum of the population,
keeping the earlier element on ties (strict-< update). -/
def popMin (best : Firefly) : List Firefly → Firefly
  | [] => best
  | f :: rest => popMin (if f.value < best.value then f else best) rest

/-- `updateBest()`: find the population minimum and replace
`bestFirefly` with its clone when it strictly improves (or none is
stored).  On an empty population JavaScript faults (`fireflies[0]` is
`undefined`), modelled by `none`. -/
def updateBest (s : Swarm) : Option Swarm :=
  match s.fireflies with
  | [] => none
  | f0 :: _ =>
    let best := popMin f0 s.fireflies
    match s.bestFirefly with
    | none => some { s with bestFirefly := some (clone ⟨0, 0, 0, 0⟩ best) }
    | some b =>
      if best.value < b.value then
        some { s with bestFirefly := some (clone ⟨0, 0, 0, 0⟩ best) }
      else some s

/-- `initialize()`: repopulate with `n` fresh random agents, reset the
generation counter, then `updateBest()`.  `rnd i` supplies the draws for
the i-th new agent. -/
def initializePop (s : Swarm) (rnd : ℕ → InitRand) : Option Swarm :=
  let dom := s.objectiveFunction.domain
  let fs := (List.range s.params.n).map
    (fun i => mkRandomFirefly dom s.objectiveFunction (rnd i))
  updateBest { s with fireflies := fs, generation := 0 }

/-- The body of the inner `for j` loop of `step()`: skip `j = i`; if
`fireflies[j]` is brighter than the current `fireflies[i]`, replace
agent `i` by its move toward agent `j` at once and set the `moved`
flag.  The accumulator carries the current population, the count of
random pairs consumed so far, and the `moved` flag. -/
def innerStep (beta0 gamma alpha : ℝ) (dom : Domain) (u : ℕ → ℝ × ℝ)
    (i : ℕ) (acc : List Firefly × ℕ × Bool) (j : ℕ) :
    List Firefly × ℕ × Bool :=
  if j = i then acc
  else
    let other := acc.1.getD j dfltFirefly
    let self := acc.1.getD i dfltFirefly
    if other.value < self.value then
      (acc.1.set i (moveTowards self other beta0 gamma alpha dom (u acc.2.1)),
        acc.2.1 + 1, true)
    else acc

/-- The body of the outer `for i` loop of `step()`: run the inner loop
over all indices; if no brighter agent was found, agent `i` random-walks
with strength `alpha * 0.1` instead. -/
def outerStep (beta0 gamma alpha : ℝ) (dom : Domain) (u : ℕ → ℝ × ℝ)
    (st : List Firefly × ℕ) (i : ℕ) : List Firefly × ℕ :=
  let inner := (List.range st.1.length).foldl
    (innerStep beta0 gamma alpha dom u i) (st.1, st.2, false)
  if inner.2.2 = true then (inner.1, inner.2.1)
  else
    (inner.1.set i
      (randomWalk (inner.1.getD i dfltFirefly) (alpha * 0.1) dom (u inner.2.1)),
      inner.2.1 + 1)

/-- The movement pass of `step()`: the outer `for i` / inner `for j`
loops, each modelled as a left fold over the index range.
`fireflies[i]` is replaced in place the moment a brighter
`fireflies[j]` is found. -/
def stepPass (beta0 gamma alpha : ℝ) (dom : Domain) (u : ℕ → ℝ × ℝ)
    (fs0 : List Firefly) : List Firefly × ℕ :=
  (List.range fs0.length).foldl (outerStep beta0 gamma alpha dom u) (fs0, 0)

/-- `step()`: one full movement pass, then `generation += 1`, then
`updateBest()`. -/
def step (s : Swarm) (u : ℕ → ℝ × ℝ) : Option Swarm :=
  let dom := s.objectiveFunction.domain
  let fs := (stepPass s.params.beta0 s.params.gamma s.params.alpha dom u
    s.fireflies).1
  updateBest { s with fireflies := fs, generation := s.generation + 1 }

/-- Comparator of the shrink branch of `adjustPopulation`: ascending by
`value` (`(a, b) => a.value - b.value`; JavaScript sort is stable). -/
def fireflyLE (a b : Firefly) : Prop := a.value ≤ b.value

instance : DecidableRel fireflyLE := fun a b => by
  unfold fireflyLE; infer_instance

instance : IsTotal Firefly fireflyLE :=
  ⟨fun a b => le_total a.value b.value⟩

instance : IsTrans Firefly fireflyLE :=
  ⟨fun _ _ _ h1 h2 => le_trans h1 h2⟩

/-- `adjustPopulation(newN)`: grow by appending fresh random agents, or
shrink by stably sorting ascending by `value` and keeping the first
`newN`.  `g i` supplies the draws for the i-th appended agent. -/
def adjustPopulation (newN : ℕ) (g : ℕ → InitRand) (s : Swarm) : Swarm :=
  let dom := s.objectiveFunction.domain
  if s.fireflies.length < newN then
    let extra := (List.range (newN - s.fireflies.length)).map
      (fun i => mkRandomFirefly dom s.objectiveFunction (g i))
    { s with fireflies := s.fireflies ++ extra }
  else if newN < s.fireflies.length then
    { s with fireflies := (s.fireflies.insertionSort fireflyLE).take newN }
  else s

/-- `setParams(newParams)`: merge the patch into `params` (no
validation of any kind), then run the function-change branch (guarded by
JavaScript truthiness: a present, non-empty, different key) and the
population-resize branch (a present, non-zero, different n).  An
unregistered key makes the function-change branch fault on the missing
domain (`none`). -/
def setParams (s : Swarm) (q : ParamsPatch) (g : ℕ → InitRand) : Option Swarm :=
  let prevN := s.params.n
  let prevFunc := s.params.functionKey
  let s1 : Swarm := { s with params := mergeParams s.params q }
  let afterFunc : Option Swarm :=
    match q.functionKey with
    | some k =>
      if k ≠ "" ∧ k ≠ prevFunc then
        match objectiveFunctions s1.params.functionKey with
        | none => none
        | some F =>
          let fs := s1.fireflies.map (fun f =>
            evaluate (clampToDomain F.domain { f with objectiveFunction := F }))
          updateBest
            { s1 with objectiveFunction := F, fireflies := fs, bestFirefly := none }
      else some s1
    | none => some s1
  match afterFunc with
  | none => none
  | some s2 =>
    match q.n with
    | some m => if m ≠ 0 ∧ m ≠ prevN then some (adjustPopulation m g s2) else some s2
    | none => some s2

/-- One iteration of the renderer's response-check loop: if the agent at
index `i` is female, run `checkForNearbyFlash` against the current
(partially updated) population and replace only that agent. -/
def checkStep (dom : Domain) (u : ℕ → ℝ) (cur : List Firefly) (i : ℕ) :
    List Firefly :=
  if (cur.getD i dfltFirefly).gender = Gender.female then
    cur.set i (checkForNearbyFlash cur i dom (u i))
  else cur

/-- Phase one of the renderer's per-frame tick: the response-check loop
over every agent index in population order.  `u i` is the delay draw
available to agent `i`. -/
def checkPhase (dom : Domain) (u : ℕ → ℝ) (fs : List Firefly) : List Firefly :=
  (List.range fs.length).foldl (checkStep dom u) fs

/-- One continuous-clock tick (`Renderer.render`, lines 250-260): check
all females first, and only then `updateFlash(deltaTime)` on every
agent. -/
def advanceTick (dom : Domain) (dt : ℝ) (u : ℕ → ℝ) (fs : List Firefly) :
    List Firefly :=
  (checkPhase dom u fs).map (updateFlash dt)

/-! ### Claim-side description of the movement sweep

The following two definitions transcribe the specification's wording of
`step()` ("for each fixed i, every j ≠ i in population order: whenever
agents[j].value < agents[i].value at the moment of comparison, agent i
moves immediately; if no j was found brighter, random walk"), written as
explicit recursion over the visit orders, to be compared against the
source-side fold `stepPass`. -/

/-- The claim's inner scan for one fixed agent `i`: visit the indices
`js` left to right; on each `j ≠ i` whose agent is currently brighter
than the current agent `i`, replace agent `i` at once, so the next
comparison already sees the moved agent. -/
def specScanOthers (beta0 gamma alpha : ℝ) (dom : Domain) (u : ℕ → ℝ × ℝ)
    (i : ℕ) : List ℕ → List Firefly → ℕ → Bool → List Firefly × ℕ × Bool
  | [], cur, idx, moved => (cur, idx, moved)
  | j :: js, cur, idx, moved =>
    if j = i then specScanOthers beta0 gamma alpha dom u i js cur idx moved
    else if (cur.getD j dfltFirefly).value < (cur.getD i dfltFirefly).value then
      specScanOthers beta0 gamma alpha dom u i js
        (cur.set i (moveTowards (cur.getD i dfltFirefly) (cur.getD j dfltFirefly)
          beta0 gamma alpha dom (u idx)))
        (idx + 1) true
    else specScanOthers beta0 gamma alpha dom u i js cur idx moved

/-- The claim's outer sweep: visit every agent index in population
order; scan all others for the fixed agent; if no brighter agent was
found during the scan, the agent does a random walk with strength
`alpha * 0.1` instead. -/
def specSweep (beta0 gamma alpha : ℝ) (dom : Domain) (u : ℕ → ℝ × ℝ) :
    List ℕ → List Firefly → ℕ → List Firefly × ℕ
  | [], cur, idx => (cur, idx)
  | i :: rest, cur, idx =>
    let r := specScanOthers beta0 gamma alpha dom u i (List.range cur.length)
      cur idx false
    if r.2.2 = true then specSweep beta0 gamma alpha dom u rest r.1 r.2.1
    else specSweep beta0 gamma alpha dom u rest
      (r.1.set i (randomWalk (r.1.getD i dfltFirefly) (alpha * 0.1) dom (u r.2.1)))
      (r.2.1 + 1)

/-- The claim-side movement pass over the whole population. -/
def specSequentialPass (beta0 gamma alpha : ℝ) (dom : Domain) (u : ℕ → ℝ × ℝ)
    (fs : List Firefly) : List Firefly :=
  (specSweep beta0 gamma alpha dom u (List.range fs.length) fs 0).1

/-- Whether a firefly's position lies within the given bounds. -/
def inDomain (d : Domain) (f : Firefly) : Prop :=
  d.xMin ≤ f.x ∧ f.x ≤ d.xMax ∧ d.yMin ≤ f.y ∧ f.y ≤ d.yMax

/-! ### Concrete states used by witnesses and counterexamples -/

/-- A concrete non-flashing female agent. -/
def femaleTest : Firefly :=
  { x := 1, y := 1, objectiveFunction := sphere, value := 2, brightness := -2,
    trail := [], maxTrailLength := 20, gender := Gender.female,
    flashPhase := 1000, flashInterval := 4000, flashDuration := 200,
    isFlashing := false, flashIntensity := 0, responseDelay := 0,
    isResponding := false }

/-- A concrete male agent currently flashing at intensity 0.6. -/
def maleTest : Firefly :=
  { x := 1, y := 1, objectiveFunction := sphere, value := 1, brightness := -1,
    trail := [], maxTrailLength := 20, gender := Gender.male,
    flashPhase := 100, flashInterval := 2000, flashDuration := 200,
    isFlashing := true, flashIntensity := 0.6, responseDelay := 0,
    isResponding := false }

/-- A concrete flashing agent at the start of its flash
(duration 200, phase 0), for the envelope worked example. -/
def flashTest : Firefly :=
  { x := 0, y := 0, objectiveFunction := sphere, value := 0, brightness := 0,
    trail := [], maxTrailLength := 20, gender := Gender.male,
    flashPhase := 0, flashInterval := 4000, flashDuration := 200,
    isFlashing := true, flashIntensity := 0, responseDelay := 0,
    isResponding := false }

/-- A stored best with an unbeatably low value. -/
def bestTest : Firefly :=
  { femaleTest with value := -100, brightness := 100 }

/-- A concrete swarm over the sphere function with one agent and a
stored best of value -100. -/
def swarmTest : Swarm :=
  { params := { n := 1, gamma := 1, beta0 := 1, alpha := 0.2,
                functionKey := "sphere" }
    generation := 3
    fireflies := [femaleTest]
    bestFirefly := some bestTest
    objectiveFunction := sphere }

/-- A concrete swarm with three agents of values 3, 1, 2 for the
resize claims. -/
def swarmTest3 : Swarm :=
  { params := { n := 3, gamma := 1, beta0 := 1, alpha := 0.2,
                functionKey := "sphere" }
    generation := 5
    fireflies := [{ femaleTest with value := 3 }, { femaleTest with value := 1 },
                  { femaleTest with value := 2 }]
    bestFirefly := some bestTest
    objectiveFunction := sphere }

/-- A fixed random supply for population construction: every draw is
1/2. -/
def rndHalf : ℕ → InitRand := fun _ => ⟨1/2, 1/2, ⟨0, 0, 0, 0⟩⟩

/-- A fixed random supply for movement noise: every draw is (1/2, 1/2). -/
def rndPair : ℕ → ℝ × ℝ := fun _ => (1/2, 1/2)

end

/-! ## Helper lemmas -/

theorem getD_set_self {α : Type _} (l : List α) (i : ℕ) (a d : α)
    (h : i < l.length) : (l.set i a).getD i d = a := by
  simp [List.getD_eq_getElem?_getD, List.getElem?_set_self', h]

theorem getD_set_ne {α : Type _} (l : List α) {i j : ℕ} (a d : α)
    (h : i ≠ j) : (l.set i a).getD j d = l.getD j d := by
  simp [List.getD_eq_getElem?_getD, List.getElem?_set_ne h]

theorem clone_value (fi : FlashInit) (f : Firefly) : (clone fi f).value = f.value := by
  simp [clone]

theorem popMin_le_acc (l : List Firefly) : ∀ b : Firefly,
    (popMin b l).value ≤ b.value := by
  induction l with
  | nil => intro b; simp [popMin]
  | cons f rest ih =>
    intro b
    simp only [popMin]
    split
    · exact le_trans (ih _) (le_of_lt (by assumption))
    · exact ih b

theorem popMin_le (l : List Firefly) : ∀ b f : Firefly, f ∈ l →
    (popMin b l).value ≤ f.value := by
  induction l with
  | nil => intro b f hf; cases hf
  | cons f0 rest ih =>
    intro b f hf
    rcases List.mem_cons.mp hf with rfl | hf
    · simp only [popMin]
      split
      · exact popMin_le_acc rest _
      · exact le_trans (popMin_le_acc rest b) (not_lt.mp (by assumption))
    · simp only [popMin]
      exact ih _ f hf

theorem popMin_mem (l : List Firefly) : ∀ b : Firefly,
    popMin b l = b ∨ popMin b l ∈ l := by
  induction l with
  | nil => intro b; left; rfl
  | cons f rest ih =>
    intro b
    simp only [popMin]
    split
    · rcases ih f with h | h
      · right; exact List.mem_cons.mpr (Or.inl h)
      · right; exact List.mem_cons.mpr (Or.inr h)
    · rcases ih b with h | h
      · left; exact h
      · right; exact List.mem_cons.mpr (Or.inr h)

/-- Characterization of `updateBest` on a non-empty population. -/
theorem updateBest_char (s : Swarm) (f0 : Firefly) (rest : List Firefly)
    (h : s.fireflies = f0 :: rest) :
    ∃ s', updateBest s = some s' ∧ s'.fireflies = s.fireflies ∧
      s'.generation = s.generation ∧ s'.params = s.params ∧
      s'.objectiveFunction = s.objectiveFunction ∧
      ((s.bestFirefly = none ∧
          s'.bestFirefly = some (clone ⟨0, 0, 0, 0⟩ (popMin f0 (f0 :: rest)))) ∨
       (∃ b, s.bestFirefly = some b ∧ (popMin f0 (f0 :: rest)).value < b.value ∧
          s'.bestFirefly = some (clone ⟨0, 0, 0, 0⟩ (popMin f0 (f0 :: rest)))) ∨
       (∃ b, s.bestFirefly = some b ∧ ¬(popMin f0 (f0 :: rest)).value < b.value ∧
          s' = s)) := by
  rcases hbc : s.bestFirefly with _ | b
  · refine ⟨{ s with bestFirefly := some (clone ⟨0, 0, 0, 0⟩ (popMin f0 (f0 :: rest))) },
      ?_, rfl, rfl, rfl, rfl, Or.inl ⟨rfl, rfl⟩⟩
    unfold updateBest
    rw [h, hbc]
  · by_cases hlt : (popMin f0 (f0 :: rest)).value < b.value
    · refine ⟨{ s with bestFirefly := some (clone ⟨0, 0, 0, 0⟩ (popMin f0 (f0 :: rest))) },
        ?_, rfl, rfl, rfl, rfl, Or.inr (Or.inl ⟨b, rfl, hlt, rfl⟩)⟩
      unfold updateBest
      rw [h, hbc]
      simp only [if_pos hlt]
    · refine ⟨s, ?_, rfl, rfl, rfl, rfl, Or.inr (Or.inr ⟨b, rfl, hlt, rfl⟩)⟩
      unfold updateBest
      rw [h, hbc]
      simp only [if_neg hlt]


/-! ## Claim C1 -/

/-- Claim C1, counterexample.  `setParams({gamma: -1})` on a concrete
swarm neither fails nor leaves the state unchanged: the negative
`gamma` is silently stored, so the call is not validated and not
transactional. -/
theorem setParams_negative_gamma_not_rejected :
    setParams swarmTest ⟨none, some (-1), none, none, none⟩ rndHalf ≠ none ∧
    setParams swarmTest ⟨none, some (-1), none, none, none⟩ rndHalf ≠
      some swarmTest := by
  constructor
  · simp [setParams, mergeParams]
  · intro hEq
    have h1 : (setParams swarmTest ⟨none, some (-1), none, none, none⟩
        rndHalf).map (fun t => t.params.gamma) = some (-1) := by
      simp [setParams, mergeParams]
    rw [hEq] at h1
    simp [swarmTest] at h1
    norm_num at h1

/-- Claim C1 as amended: `setParams` performs no validation at all.  A
patch carrying only a negative `gamma` is merged unconditionally: the
call succeeds and returns the same state with `params.gamma` replaced
by the negative value (population, generation and best untouched). -/
theorem setParams_no_validation (s : Swarm) (x : ℝ) (g : ℕ → InitRand)
    (hx : x < 0) :
    setParams s ⟨none, some x, none, none, none⟩ g =
      some { s with params := { s.params with gamma := x } } := by
  simp [setParams, mergeParams]

/-- Witness for `setParams_no_validation` at gamma = -1 on the concrete
test swarm. -/
theorem setParams_no_validation_witness :
    (-1 : ℝ) < 0 ∧
    setParams swarmTest ⟨none, some (-1), none, none, none⟩ rndHalf =
      some { swarmTest with params := { swarmTest.params with gamma := -1 } } :=
  ⟨by norm_num, setParams_no_validation swarmTest (-1) rndHalf (by norm_num)⟩

/-! ## Claim C10 -/

/-- Claim C10: `clone()` preserves position, value, brightness, gender
and every flash-timing field, but never copies the trail — the clone's
trail is always empty. -/
theorem clone_preserves_fields (fi : FlashInit) (f : Firefly) :
    (clone fi f).x = f.x ∧ (clone fi f).y = f.y ∧
    (clone fi f).objectiveFunction = f.objectiveFunction ∧
    (clone fi f).value = f.value ∧
    (clone fi f).brightness = f.brightness ∧
    (clone fi f).gender = f.gender ∧
    (clone fi f).flashPhase = f.flashPhase ∧
    (clone fi f).flashInterval = f.flashInterval ∧
    (clone fi f).flashDuration = f.flashDuration ∧
    (clone fi f).isFlashing = f.isFlashing ∧
    (clone fi f).flashIntensity = f.flashIntensity ∧
    (clone fi f).responseDelay = f.responseDelay ∧
    (clone fi f).isResponding = f.isResponding ∧
    (clone fi f).trail = [] := by
  simp [clone, construct]


/-! ## Claim C7 -/

/-- Claim C7: while an agent is mid-flash (response machinery idle, no
natural retrigger), `updateFlash(dt)` advances the phase by `dt` and
sets the envelope from `t = phase/duration`: linear attack `t/0.2` for
`t < 0.2`, exponential decay `e^(-3(t-0.2))` for `0.2 <= t < 1`, and at
`t >= 1` the flash exits with `isFlashing = false` and intensity 0. -/
theorem updateFlash_envelope (f : Firefly) (dt : ℝ)
    (hresp : f.isResponding = false) (hfl : f.isFlashing = true)
    (hint : f.flashPhase + dt < f.flashInterval) :
    (updateFlash dt f).flashPhase = f.flashPhase + dt ∧
    (updateFlash dt f).flashDuration = f.flashDuration ∧
    (updateFlash dt f).flashInterval = f.flashInterval ∧
    ((f.flashPhase + dt) / f.flashDuration < 0.2 →
      (updateFlash dt f).flashIntensity =
        ((f.flashPhase + dt) / f.flashDuration) / 0.2 ∧
      (updateFlash dt f).isFlashing = true ∧
      (updateFlash dt f).isResponding = false) ∧
    (0.2 ≤ (f.flashPhase + dt) / f.flashDuration →
      (f.flashPhase + dt) / f.flashDuration < 1 →
      (updateFlash dt f).flashIntensity =
        Real.exp (-3 * ((f.flashPhase + dt) / f.flashDuration - 0.2)) ∧
      (updateFlash dt f).isFlashing = true ∧
      (updateFlash dt f).isResponding = false) ∧
    (1 ≤ (f.flashPhase + dt) / f.flashDuration →
      (updateFlash dt f).isFlashing = false ∧
      (updateFlash dt f).flashIntensity = 0 ∧
      (updateFlash dt f).isResponding = false) := by
  have hint' : ¬ f.flashInterval ≤ f.flashPhase + dt := not_le.mpr hint
  have hu : updateFlash dt f =
      (if (f.flashPhase + dt) / f.flashDuration < 0.2 then
        { f with
            flashPhase := f.flashPhase + dt
            flashIntensity := ((f.flashPhase + dt) / f.flashDuration) / 0.2 }
      else if (f.flashPhase + dt) / f.flashDuration < 1 then
        { f with
            flashPhase := f.flashPhase + dt
            flashIntensity :=
              Real.exp (-3 * ((f.flashPhase + dt) / f.flashDuration - 0.2)) }
      else
        { f with
            flashPhase := f.flashPhase + dt
            isFlashing := false
            flashIntensity := 0
            isResponding := false }) := by
    unfold updateFlash
    simp only [hresp, hfl, Bool.false_eq_true, false_and, if_false, not_false_iff,
      true_or, if_true, if_neg hint', ite_true, Bool.true_eq_false]
  refine ⟨?_, ?_, ?_, ?_, ?_, ?_⟩
  · rw [hu]; split_ifs <;> rfl
  · rw [hu]; split_ifs <;> rfl
  · rw [hu]; split_ifs <;> rfl
  · intro h1
    rw [hu, if_pos h1]
    exact ⟨rfl, hfl, hresp⟩
  · intro h1 h2
    rw [hu, if_neg (not_lt.mpr h1), if_pos h2]
    exact ⟨rfl, hfl, hresp⟩
  · intro h1
    rw [hu, if_neg (not_lt.mpr (by linarith)), if_neg (not_lt.mpr h1)]
    exact ⟨rfl, rfl, rfl⟩

/-- Witness for `updateFlash_envelope`: the worked example.  An agent
with duration 200 entering the flash at phase 0 reaches intensity 1
after `updateFlash(40)` (t = 0.2, decay-branch boundary, since
exp(0) = 1), and intensity exp(-0.9) after a further `updateFlash(60)`
(phase 100, t = 0.5). -/
theorem updateFlash_envelope_witness :
    (updateFlash 40 flashTest).flashIntensity = 1 ∧
    (updateFlash 40 flashTest).flashPhase = 40 ∧
    (updateFlash 60 (updateFlash 40 flashTest)).flashPhase = 100 ∧
    (updateFlash 60 (updateFlash 40 flashTest)).flashIntensity =
      Real.exp (-0.9) := by
  have h1 := updateFlash_envelope flashTest 40 rfl rfl
    (by simp [flashTest]; norm_num)
  have ht1 : ((flashTest.flashPhase + 40) / flashTest.flashDuration : ℝ) = 0.2 := by
    simp [flashTest]; norm_num
  obtain ⟨hph, hdur, hintv, _, hdecay, _⟩ := h1
  have hd := hdecay (by rw [ht1]) (by rw [ht1]; norm_num)
  have hi1 : (updateFlash 40 flashTest).flashIntensity = 1 := by
    rw [hd.1, ht1]
    norm_num
  have h2 := updateFlash_envelope (updateFlash 40 flashTest) 60
    hd.2.2 hd.2.1 (by rw [hph, hintv]; simp [flashTest]; norm_num)
  have ht2 : (((updateFlash 40 flashTest).flashPhase + 60) /
      (updateFlash 40 flashTest).flashDuration : ℝ) = 0.5 := by
    rw [hph, hdur]; simp [flashTest]; norm_num
  obtain ⟨hph2, _, _, _, hdecay2, _⟩ := h2
  have hd2 := hdecay2 (by rw [ht2]; norm_num) (by rw [ht2]; norm_num)
  refine ⟨hi1, by rw [hph]; simp [flashTest], ?_, ?_⟩
  · rw [hph2, hph]; simp [flashTest]; norm_num
  · rw [hd2.1, ht2]; norm_num

/-! ## Claim C8 -/

/-- Claim C8: `checkForNearbyFlash` is a no-op for a non-female,
already-flashing or already-responding agent, and when the natural
flash is imminent (interval - phase < 500).  Otherwise, if some other
index holds a male of intensity above 0.5 strictly within
`0.2 * max(domainWidth, domainHeight)`, the agent is returned with
`isResponding = true` and `responseDelay = 400 + u * 200`, which lies in
`[400, 600)` for a draw `u` in `[0, 1)`; with no qualifying male the
agent is unchanged. -/
theorem checkForNearbyFlash_spec (fs : List Firefly) (i : ℕ) (dom : Domain)
    (u : ℝ) :
    (((fs.getD i dfltFirefly).gender ≠ Gender.female ∨
        (fs.getD i dfltFirefly).isFlashing = true ∨
        (fs.getD i dfltFirefly).isResponding = true) →
      checkForNearbyFlash fs i dom u = fs.getD i dfltFirefly) ∧
    ((fs.getD i dfltFirefly).flashInterval -
        (fs.getD i dfltFirefly).flashPhase < 500 →
      checkForNearbyFlash fs i dom u = fs.getD i dfltFirefly) ∧
    ((fs.getD i dfltFirefly).gender = Gender.female →
      (fs.getD i dfltFirefly).isFlashing = false →
      (fs.getD i dfltFirefly).isResponding = false →
      500 ≤ (fs.getD i dfltFirefly).flashInterval -
        (fs.getD i dfltFirefly).flashPhase →
      ((∃ j, j < fs.length ∧ j ≠ i ∧
          (fs.getD j dfltFirefly).gender = Gender.male ∧
          (0.5 : ℝ) < (fs.getD j dfltFirefly).flashIntensity ∧
          distanceTo (fs.getD i dfltFirefly) (fs.getD j dfltFirefly) <
            0.2 * max (dom.xMax - dom.xMin) (dom.yMax - dom.yMin)) →
        checkForNearbyFlash fs i dom u =
          { fs.getD i dfltFirefly with
              responseDelay := 400 + u * 200
              isResponding := true }) ∧
      (¬(∃ j, j < fs.length ∧ j ≠ i ∧
          (fs.getD j dfltFirefly).gender = Gender.male ∧
          (0.5 : ℝ) < (fs.getD j dfltFirefly).flashIntensity ∧
          distanceTo (fs.getD i dfltFirefly) (fs.getD j dfltFirefly) <
            0.2 * max (dom.xMax - dom.xMin) (dom.yMax - dom.yMin)) →
        checkForNearbyFlash fs i dom u = fs.getD i dfltFirefly)) ∧
    (0 ≤ u → u < 1 → 400 ≤ 400 + u * 200 ∧ 400 + u * 200 < 600) := by
  refine ⟨?_, ?_, ?_, ?_⟩
  · intro h
    simp only [checkForNearbyFlash]
    rw [if_pos h]
  · intro h
    simp only [checkForNearbyFlash]
    by_cases hg : (fs.getD i dfltFirefly).gender ≠ Gender.female ∨
        (fs.getD i dfltFirefly).isFlashing = true ∨
        (fs.getD i dfltFirefly).isResponding = true
    · rw [if_pos hg]
    · rw [if_neg hg, if_pos h]
  · intro hg hfl hresp h500
    have hcond : ¬((fs.getD i dfltFirefly).gender ≠ Gender.female ∨
        (fs.getD i dfltFirefly).isFlashing = true ∨
        (fs.getD i dfltFirefly).isResponding = true) := by
      push_neg
      exact ⟨by simpa using hg, by simpa using hfl, by simpa using hresp⟩
    have h500' : ¬((fs.getD i dfltFirefly).flashInterval -
        (fs.getD i dfltFirefly).flashPhase < 500) := not_lt.mpr h500
    rcases hfind : (List.range fs.length).find? (nearbyMale fs i
        (fs.getD i dfltFirefly)
        (0.2 * max (dom.xMax - dom.xMin) (dom.yMax - dom.yMin))) with _ | v
    · constructor
      · rintro ⟨j, hj, hji, hmale, hint, hdist⟩
        exfalso
        have hn := List.find?_eq_none.mp hfind j (List.mem_range.mpr hj)
        apply hn
        simp only [nearbyMale, Bool.and_eq_true, decide_eq_true_eq]
        exact ⟨⟨⟨hji, hmale⟩, hint⟩, hdist⟩
      · intro hno
        simp only [checkForNearbyFlash]
        rw [if_neg hcond, if_neg h500', hfind]
    · constructor
      · intro hex
        simp only [checkForNearbyFlash]
        rw [if_neg hcond, if_neg h500', hfind]
      · intro hno
        exfalso
        have hq := List.find?_some hfind
        have hv := List.mem_of_find?_eq_some hfind
        apply hno
        have hq' := hq
        simp only [nearbyMale, Bool.and_eq_true, decide_eq_true_eq] at hq'
        exact ⟨v, List.mem_range.mp hv, hq'.1.1.1, hq'.1.1.2, hq'.1.2, hq'.2⟩
  · intro h0 h1
    constructor
    · nlinarith
    · nlinarith

/-- Witness for `checkForNearbyFlash_spec`: a female with interval 4000
and phase 1000 colocated with a male of intensity 0.6 over the sphere
domain starts responding with delay 500 for the draw u = 1/2. -/
theorem checkForNearbyFlash_spec_witness :
    (checkForNearbyFlash [femaleTest, maleTest] 0 sphere.domain
      (1 / 2)).isResponding = true ∧
    (checkForNearbyFlash [femaleTest, maleTest] 0 sphere.domain
      (1 / 2)).responseDelay = 500 := by
  have h := checkForNearbyFlash_spec [femaleTest, maleTest] 0 sphere.domain (1 / 2)
  have htrig := h.2.2.1 (by simp [femaleTest]) (by simp [femaleTest])
    (by simp [femaleTest]) (by simp [femaleTest]; norm_num)
  have hdist : distanceTo ([femaleTest, maleTest].getD 0 dfltFirefly)
      ([femaleTest, maleTest].getD 1 dfltFirefly) <
      0.2 * max (sphere.domain.xMax - sphere.domain.xMin)
        (sphere.domain.yMax - sphere.domain.yMin) := by
    simp [distanceTo, femaleTest, maleTest, sphere]
    norm_num
  have heq := htrig.1 ⟨1, by norm_num, by norm_num,
    by simp [maleTest], by simp [maleTest]; norm_num, hdist⟩
  rw [heq]
  norm_num


/-! ## Claim C9 -/

theorem getD_oob {α : Type _} (l : List α) (i : ℕ) (d : α)
    (h : l.length ≤ i) : l.getD i d = d := by
  simp [List.getD_eq_getElem?_getD, List.getElem?_eq_none h]

/-- `checkForNearbyFlash` never changes the agent's own flash
intensity (it only writes `responseDelay` and `isResponding`). -/
theorem checkForNearbyFlash_intensity (fs : List Firefly) (i : ℕ)
    (dom : Domain) (u : ℝ) :
    (checkForNearbyFlash fs i dom u).flashIntensity =
      (fs.getD i dfltFirefly).flashIntensity := by
  simp only [checkForNearbyFlash]
  split_ifs
  · rfl
  · rfl
  · rcases hfind : (List.range fs.length).find? (nearbyMale fs i
        (fs.getD i dfltFirefly)
        (0.2 * max (dom.xMax - dom.xMin) (dom.yMax - dom.yMin))) with _ | v
    · rfl
    · rfl

/-- A non-female agent is returned unchanged by `checkForNearbyFlash`. -/
theorem checkForNearbyFlash_not_female (fs : List Firefly) (i : ℕ)
    (dom : Domain) (u : ℝ)
    (h : (fs.getD i dfltFirefly).gender ≠ Gender.female) :
    checkForNearbyFlash fs i dom u = fs.getD i dfltFirefly := by
  simp only [checkForNearbyFlash]
  rw [if_pos (Or.inl h)]

/-- One response-check step preserves the length, every agent's flash
intensity, and every male agent entirely. -/
theorem checkStep_inv (dom : Domain) (u : ℕ → ℝ) (fs cur : List Firefly)
    (i : ℕ) (hlen : cur.length = fs.length)
    (hint : ∀ j, (cur.getD j dfltFirefly).flashIntensity =
      (fs.getD j dfltFirefly).flashIntensity)
    (hmale : ∀ j, (fs.getD j dfltFirefly).gender = Gender.male →
      cur.getD j dfltFirefly = fs.getD j dfltFirefly) :
    (checkStep dom u cur i).length = fs.length ∧
    (∀ j, ((checkStep dom u cur i).getD j dfltFirefly).flashIntensity =
      (fs.getD j dfltFirefly).flashIntensity) ∧
    (∀ j, (fs.getD j dfltFirefly).gender = Gender.male →
      (checkStep dom u cur i).getD j dfltFirefly = fs.getD j dfltFirefly) := by
  unfold checkStep
  by_cases hfem : (cur.getD i dfltFirefly).gender = Gender.female
  · rw [if_pos hfem]
    refine ⟨by simp [hlen], ?_, ?_⟩
    · intro j
      by_cases hji : i = j
      · subst hji
        by_cases hlt : i < cur.length
        · rw [getD_set_self _ _ _ _ hlt, checkForNearbyFlash_intensity]
          exact hint i
        · have hge : cur.length ≤ i := not_lt.mp hlt
          rw [getD_oob _ _ _ (by simpa using hge),
            getD_oob _ _ _ (by rw [← hlen]; exact hge)]
      · rw [getD_set_ne _ _ _ hji]
        exact hint j
    · intro j hjm
      by_cases hji : i = j
      · subst hji
        rw [hmale i hjm, hjm] at hfem
        exact absurd hfem (by decide)
      · rw [getD_set_ne _ _ _ hji]
        exact hmale j hjm
  · rw [if_neg hfem]
    exact ⟨hlen, hint, hmale⟩

/-- The whole response-check loop preserves the length, every flash
intensity, and every male agent. -/
theorem foldl_checkStep_inv (dom : Domain) (u : ℕ → ℝ) (fs : List Firefly)
    (il : List ℕ) : ∀ cur : List Firefly, cur.length = fs.length →
    (∀ j, (cur.getD j dfltFirefly).flashIntensity =
      (fs.getD j dfltFirefly).flashIntensity) →
    (∀ j, (fs.getD j dfltFirefly).gender = Gender.male →
      cur.getD j dfltFirefly = fs.getD j dfltFirefly) →
    (il.foldl (checkStep dom u) cur).length = fs.length ∧
    (∀ j, ((il.foldl (checkStep dom u) cur).getD j dfltFirefly).flashIntensity =
      (fs.getD j dfltFirefly).flashIntensity) ∧
    (∀ j, (fs.getD j dfltFirefly).gender = Gender.male →
      (il.foldl (checkStep dom u) cur).getD j dfltFirefly =
        fs.getD j dfltFirefly) := by
  induction il with
  | nil => intro cur h1 h2 h3; exact ⟨h1, h2, h3⟩
  | cons i rest ih =>
    intro cur h1 h2 h3
    have hstep := checkStep_inv dom u fs cur i h1 h2 h3
    rw [List.foldl_cons]
    exact ih (checkStep dom u cur i) hstep.1 hstep.2.1 hstep.2.2

theorem checkPhase_inv (dom : Domain) (u : ℕ → ℝ) (fs : List Firefly) :
    (checkPhase dom u fs).length = fs.length ∧
    (∀ j, ((checkPhase dom u fs).getD j dfltFirefly).flashIntensity =
      (fs.getD j dfltFirefly).flashIntensity) ∧
    (∀ j, (fs.getD j dfltFirefly).gender = Gender.male →
      (checkPhase dom u fs).getD j dfltFirefly = fs.getD j dfltFirefly) := by
  unfold checkPhase
  exact foldl_checkStep_inv dom u fs (List.range fs.length) fs rfl
    (fun _ => rfl) (fun _ _ => rfl)

/-- Claim C9: each continuous-clock tick is two-phase: the response
checks for all female agents run first, and only then is
`updateFlash(deltaTime)` applied to every agent.  The check phase never
changes any agent's flash intensity and leaves every male agent
untouched, so a response check observes each male's intensity exactly
as the previous tick's `updateFlash` left it. -/
theorem advanceTick_two_phase (dom : Domain) (dt : ℝ) (u : ℕ → ℝ)
    (fs : List Firefly) :
    advanceTick dom dt u fs = (checkPhase dom u fs).map (updateFlash dt) ∧
    (∀ j, ((checkPhase dom u fs).getD j dfltFirefly).flashIntensity =
      (fs.getD j dfltFirefly).flashIntensity) ∧
    (∀ j, (fs.getD j dfltFirefly).gender = Gender.male →
      (checkPhase dom u fs).getD j dfltFirefly = fs.getD j dfltFirefly) ∧
    (advanceTick dom dt u fs).length = fs.length := by
  have h := checkPhase_inv dom u fs
  exact ⟨rfl, h.2.1, h.2.2, by simp [advanceTick, h.1]⟩

/-- Witness for `advanceTick_two_phase`: the male test agent is left
untouched by the check phase. -/
theorem advanceTick_two_phase_witness :
    ([maleTest].getD 0 dfltFirefly).gender = Gender.male ∧
    (checkPhase sphere.domain (fun _ => (1 : ℝ) / 2) [maleTest]).getD 0
      dfltFirefly = [maleTest].getD 0 dfltFirefly :=
  ⟨by simp [maleTest],
    (advanceTick_two_phase sphere.domain 16 (fun _ => (1 : ℝ) / 2)
      [maleTest]).2.2.1 0 (by simp [maleTest])⟩


/-! ## Claim C2 -/

/-- A freshly constructed random agent lies in the domain and is
evaluated under the given objective function. -/
theorem mkRandomFirefly_mem (dom : Domain) (F : ObjectiveFn) (r : InitRand)
    (h0 : 0 ≤ r.ux) (h1 : r.ux < 1) (h2 : 0 ≤ r.uy) (h3 : r.uy < 1)
    (hx : dom.xMin ≤ dom.xMax) (hy : dom.yMin ≤ dom.yMax) :
    inDomain dom (mkRandomFirefly dom F r) ∧
    (mkRandomFirefly dom F r).value =
      F.fn (mkRandomFirefly dom F r).x (mkRandomFirefly dom F r).y ∧
    (mkRandomFirefly dom F r).objectiveFunction = F := by
  refine ⟨⟨?_, ?_, ?_, ?_⟩, rfl, rfl⟩ <;>
    simp only [mkRandomFirefly, construct, inDomain] <;> nlinarith

/-- Claim C2, counterexample.  `initialize()` does not discard the
prior best: on a swarm whose stored best has value -100, repopulating
(with every new agent evaluating to 0 under Sphere) leaves
`bestFirefly` at the stale -100 snapshot, which is not a member value
of the new population. -/
theorem initializePop_keeps_stale_best :
    (initializePop swarmTest rndHalf).map (fun t => t.bestFirefly) =
      some (some bestTest) ∧
    (initializePop swarmTest rndHalf).map
      (fun t => t.fireflies.map (fun f => f.value)) = some [0] ∧
    bestTest.value = -100 ∧ (0 : ℝ) ≠ -100 := by
  have hval : (mkRandomFirefly sphere.domain sphere (rndHalf 0)).value = 0 := by
    simp [mkRandomFirefly, construct, sphere, rndHalf]
    norm_num
  have hpop : initializePop swarmTest rndHalf =
      updateBest { swarmTest with
        fireflies := [mkRandomFirefly sphere.domain sphere (rndHalf 0)]
        generation := 0 } := by
    simp [initializePop, swarmTest, List.range_succ]
  have hpm : popMin (mkRandomFirefly sphere.domain sphere (rndHalf 0))
      [mkRandomFirefly sphere.domain sphere (rndHalf 0)] =
      mkRandomFirefly sphere.domain sphere (rndHalf 0) := by
    simp [popMin]
  have hnlt : ¬ (popMin (mkRandomFirefly sphere.domain sphere (rndHalf 0))
      [mkRandomFirefly sphere.domain sphere (rndHalf 0)]).value <
        bestTest.value := by
    rw [hpm, hval]
    norm_num [bestTest, femaleTest]
  have hub : updateBest { swarmTest with
      fireflies := [mkRandomFirefly sphere.domain sphere (rndHalf 0)]
      generation := 0 } =
      some { swarmTest with
        fireflies := [mkRandomFirefly sphere.domain sphere (rndHalf 0)]
        generation := 0 } := by
    simp only [updateBest, swarmTest]
    rw [if_neg hnlt]
  rw [hpop, hub]
  refine ⟨by simp [swarmTest], by simp [hval], rfl, by norm_num⟩

/-- Claim C2 as amended: `initialize()` repopulates with `n` fresh
domain-uniform agents evaluated under the current objective function
and resets the generation counter to 0, but the best is kept
best-ever: the new population minimum replaces `bestFirefly` only when
no best is stored or the minimum strictly improves on it; a strictly
better prior best survives the reinitialization. -/
theorem initializePop_spec (s : Swarm) (rnd : ℕ → InitRand)
    (hn : 0 < s.params.n)
    (hr : ∀ i, 0 ≤ (rnd i).ux ∧ (rnd i).ux < 1 ∧
      0 ≤ (rnd i).uy ∧ (rnd i).uy < 1)
    (hx : s.objectiveFunction.domain.xMin ≤ s.objectiveFunction.domain.xMax)
    (hy : s.objectiveFunction.domain.yMin ≤ s.objectiveFunction.domain.yMax) :
    ∃ s', initializePop s rnd = some s' ∧ s'.generation = 0 ∧
      s'.params = s.params ∧ s'.objectiveFunction = s.objectiveFunction ∧
      s'.fireflies.length = s.params.n ∧
      (∀ f ∈ s'.fireflies, inDomain s.objectiveFunction.domain f ∧
        f.value = s.objectiveFunction.fn f.x f.y ∧
        f.objectiveFunction = s.objectiveFunction) ∧
      ∃ m, m ∈ s'.fireflies ∧ (∀ f ∈ s'.fireflies, m.value ≤ f.value) ∧
        ((s.bestFirefly = none →
            s'.bestFirefly = some (clone ⟨0, 0, 0, 0⟩ m)) ∧
         (∀ b, s.bestFirefly = some b → m.value < b.value →
            s'.bestFirefly = some (clone ⟨0, 0, 0, 0⟩ m)) ∧
         (∀ b, s.bestFirefly = some b → ¬ m.value < b.value →
            s'.bestFirefly = s.bestFirefly)) := by
  have hlen : ((List.range s.params.n).map
      (fun i => mkRandomFirefly s.objectiveFunction.domain
        s.objectiveFunction (rnd i))).length = s.params.n := by simp
  have hmem : ∀ f ∈ (List.range s.params.n).map
      (fun i => mkRandomFirefly s.objectiveFunction.domain
        s.objectiveFunction (rnd i)),
      inDomain s.objectiveFunction.domain f ∧
      f.value = s.objectiveFunction.fn f.x f.y ∧
      f.objectiveFunction = s.objectiveFunction := by
    intro f hf
    obtain ⟨i, _, rfl⟩ := List.mem_map.mp hf
    exact mkRandomFirefly_mem _ _ _ (hr i).1 (hr i).2.1 (hr i).2.2.1
      (hr i).2.2.2 hx hy
  have hne : (List.range s.params.n).map
      (fun i => mkRandomFirefly s.objectiveFunction.domain
        s.objectiveFunction (rnd i)) ≠ [] := by
    intro h
    rw [h] at hlen
    simp at hlen
    omega
  obtain ⟨f0, rest, hfs⟩ := List.exists_cons_of_ne_nil hne
  obtain ⟨s', hup, hff, hgen, hpar, hobj, hca⟩ :=
    updateBest_char { s with
      fireflies := (List.range s.params.n).map
        (fun i => mkRandomFirefly s.objectiveFunction.domain
          s.objectiveFunction (rnd i))
      generation := 0 } f0 rest hfs
  dsimp only at hup hff hgen hpar hobj hca
  have hini : initializePop s rnd = updateBest { s with
      fireflies := (List.range s.params.n).map
        (fun i => mkRandomFirefly s.objectiveFunction.domain
          s.objectiveFunction (rnd i))
      generation := 0 } := rfl
  refine ⟨s', by rw [hini, hup], by rw [hgen], by rw [hpar], by rw [hobj],
    ?_, ?_, ?_⟩
  · rw [hff]
    exact hlen
  · intro f hf
    rw [hff] at hf
    exact hmem f hf
  · refine ⟨popMin f0 (f0 :: rest), ?_, ?_, ?_, ?_, ?_⟩
    · rw [hff, hfs]
      rcases popMin_mem (f0 :: rest) f0 with h | h
      · rw [h]; exact List.mem_cons_self f0 rest
      · exact h
    · intro f hf
      rw [hff, hfs] at hf
      exact popMin_le (f0 :: rest) f0 f hf
    · intro hbn
      rcases hca with ⟨_, hb⟩ | ⟨b, hb, _, _⟩ | ⟨b, hb, _, _⟩
      · exact hb
      · rw [hbn] at hb; cases hb
      · rw [hbn] at hb; cases hb
    · intro b hbs hlt
      rcases hca with ⟨hb, _⟩ | ⟨c, hb, _, hb2⟩ | ⟨c, hb, hnlt, _⟩
      · rw [hbs] at hb; cases hb
      · exact hb2
      · rw [hbs] at hb
        obtain rfl : c = b := (Option.some.injEq c b).mp hb.symm ▸ rfl
        exact absurd hlt hnlt
    · intro b hbs hnlt
      rcases hca with ⟨hb, _⟩ | ⟨c, hb, hlt, _⟩ | ⟨c, hb, _, hse⟩
      · rw [hbs] at hb; cases hb
      · rw [hbs] at hb
        obtain rfl : c = b := (Option.some.injEq c b).mp hb.symm ▸ rfl
        exact absurd hlt hnlt
      · rw [hse]


/-! ## Claims C3 and C4: shared lemmas -/

theorem innerStep_length (beta0 gamma alpha : ℝ) (dom : Domain)
    (u : ℕ → ℝ × ℝ) (i : ℕ) (acc : List Firefly × ℕ × Bool) (j : ℕ) :
    (innerStep beta0 gamma alpha dom u i acc j).1.length = acc.1.length := by
  simp only [innerStep]
  split_ifs <;> simp

theorem foldl_innerStep_length (beta0 gamma alpha : ℝ) (dom : Domain)
    (u : ℕ → ℝ × ℝ) (i : ℕ) (js : List ℕ) :
    ∀ acc : List Firefly × ℕ × Bool,
      (js.foldl (innerStep beta0 gamma alpha dom u i) acc).1.length =
        acc.1.length := by
  induction js with
  | nil => intro acc; rfl
  | cons j js ih =>
    intro acc
    rw [List.foldl_cons, ih]
    exact innerStep_length beta0 gamma alpha dom u i acc j

theorem outerStep_length (beta0 gamma alpha : ℝ) (dom : Domain)
    (u : ℕ → ℝ × ℝ) (st : List Firefly × ℕ) (i : ℕ) :
    (outerStep beta0 gamma alpha dom u st i).1.length = st.1.length := by
  simp only [outerStep]
  have h := foldl_innerStep_length beta0 gamma alpha dom u i
    (List.range st.1.length) (st.1, st.2, false)
  split_ifs
  · exact h
  · simpa using h

theorem foldl_outerStep_length (beta0 gamma alpha : ℝ) (dom : Domain)
    (u : ℕ → ℝ × ℝ) (il : List ℕ) :
    ∀ st : List Firefly × ℕ,
      (il.foldl (outerStep beta0 gamma alpha dom u) st).1.length =
        st.1.length := by
  induction il with
  | nil => intro st; rfl
  | cons i il ih =>
    intro st
    rw [List.foldl_cons, ih]
    exact outerStep_length beta0 gamma alpha dom u st i

theorem stepPass_length (beta0 gamma alpha : ℝ) (dom : Domain)
    (u : ℕ → ℝ × ℝ) (fs0 : List Firefly) :
    (stepPass beta0 gamma alpha dom u fs0).1.length = fs0.length := by
  unfold stepPass
  exact foldl_outerStep_length beta0 gamma alpha dom u
    (List.range fs0.length) (fs0, 0)

/-- The inner fold of the source equals the claim-side inner scan. -/
theorem foldl_innerStep_eq_spec (beta0 gamma alpha : ℝ) (dom : Domain)
    (u : ℕ → ℝ × ℝ) (i : ℕ) (js : List ℕ) :
    ∀ (cur : List Firefly) (idx : ℕ) (moved : Bool),
      js.foldl (innerStep beta0 gamma alpha dom u i) (cur, idx, moved) =
        specScanOthers beta0 gamma alpha dom u i js cur idx moved := by
  induction js with
  | nil => intro cur idx moved; rfl
  | cons j js ih =>
    intro cur idx moved
    rw [List.foldl_cons]
    simp only [specScanOthers]
    by_cases hji : j = i
    · rw [if_pos hji]
      unfold innerStep
      rw [if_pos hji]
      exact ih cur idx moved
    · rw [if_neg hji]
      unfold innerStep
      rw [if_neg hji]
      by_cases hlt : (cur.getD j dfltFirefly).value <
          (cur.getD i dfltFirefly).value
      · rw [if_pos hlt]
        simp only
        rw [if_pos hlt]
        exact ih _ _ _
      · rw [if_neg hlt]
        simp only
        rw [if_neg hlt]
        exact ih cur idx moved

/-- The outer fold of the source equals the claim-side sweep. -/
theorem foldl_outerStep_eq_spec (beta0 gamma alpha : ℝ) (dom : Domain)
    (u : ℕ → ℝ × ℝ) (il : List ℕ) :
    ∀ (cur : List Firefly) (idx : ℕ),
      il.foldl (outerStep beta0 gamma alpha dom u) (cur, idx) =
        specSweep beta0 gamma alpha dom u il cur idx := by
  induction il with
  | nil => intro cur idx; rfl
  | cons i il ih =>
    intro cur idx
    rw [List.foldl_cons]
    simp only [specSweep]
    rw [← foldl_innerStep_eq_spec beta0 gamma alpha dom u i
      (List.range cur.length) cur idx false]
    unfold outerStep
    by_cases hm : ((List.range cur.length).foldl
        (innerStep beta0 gamma alpha dom u i) (cur, idx, false)).2.2 = true
    · simp only [if_pos hm]
      rcases hacc : (List.range cur.length).foldl
        (innerStep beta0 gamma alpha dom u i) (cur, idx, false) with ⟨c, k, m⟩
      rw [hacc] at hm
      exact ih c k
    · simp only [if_neg hm]
      rcases hacc : (List.range cur.length).foldl
        (innerStep beta0 gamma alpha dom u i) (cur, idx, false) with ⟨c, k, m⟩
      rw [hacc] at hm
      exact ih _ _

/-- `step()` on a non-empty population: full characterization of the
resulting state in terms of the movement pass and the best update. -/
theorem step_char (s : Swarm) (u : ℕ → ℝ × ℝ) (hne : s.fireflies ≠ []) :
    ∃ s' f0 rest,
      (stepPass s.params.beta0 s.params.gamma s.params.alpha
        s.objectiveFunction.domain u s.fireflies).1 = f0 :: rest ∧
      step s u = some s' ∧
      s'.generation = s.generation + 1 ∧
      s'.params = s.params ∧ s'.objectiveFunction = s.objectiveFunction ∧
      s'.fireflies = f0 :: rest ∧
      ((s.bestFirefly = none ∧ s'.bestFirefly =
          some (clone ⟨0, 0, 0, 0⟩ (popMin f0 (f0 :: rest)))) ∨
       (∃ b, s.bestFirefly = some b ∧
          (popMin f0 (f0 :: rest)).value < b.value ∧
          s'.bestFirefly = some (clone ⟨0, 0, 0, 0⟩ (popMin f0 (f0 :: rest)))) ∨
       (∃ b, s.bestFirefly = some b ∧
          ¬(popMin f0 (f0 :: rest)).value < b.value ∧
          s'.bestFirefly = s.bestFirefly)) := by
  have hlen := stepPass_length s.params.beta0 s.params.gamma s.params.alpha
    s.objectiveFunction.domain u s.fireflies
  have hne' : (stepPass s.params.beta0 s.params.gamma s.params.alpha
      s.objectiveFunction.domain u s.fireflies).1 ≠ [] := by
    intro h
    rw [h] at hlen
    exact hne (List.length_eq_zero.mp hlen.symm)
  obtain ⟨f0, rest, hfs⟩ := List.exists_cons_of_ne_nil hne'
  obtain ⟨s', hup, hff, hgen, hpar, hobj, hca⟩ :=
    updateBest_char { s with
      fireflies := (stepPass s.params.beta0 s.params.gamma s.params.alpha
        s.objectiveFunction.domain u s.fireflies).1
      generation := s.generation + 1 } f0 rest hfs
  dsimp only at hup hff hgen hpar hobj hca
  have hstep : step s u = updateBest { s with
      fireflies := (stepPass s.params.beta0 s.params.gamma s.params.alpha
        s.objectiveFunction.domain u s.fireflies).1
      generation := s.generation + 1 } := rfl
  refine ⟨s', f0, rest, hfs, by rw [hstep, hup], by rw [hgen], by rw [hpar],
    by rw [hobj], by rw [hff, hfs], ?_⟩
  rcases hca with h | h | ⟨b, hb, hnlt, hse⟩
  · exact Or.inl h
  · exact Or.inr (Or.inl h)
  · exact Or.inr (Or.inr ⟨b, hb, hnlt, by rw [hse]⟩)


/-- Witness for `initializePop_spec` on the concrete test swarm with
the constant half supply. -/
theorem initializePop_spec_witness :
    0 < swarmTest.params.n ∧
    ∃ s', initializePop swarmTest rndHalf = some s' ∧ s'.generation = 0 ∧
      s'.params = swarmTest.params ∧
      s'.objectiveFunction = swarmTest.objectiveFunction ∧
      s'.fireflies.length = swarmTest.params.n ∧
      (∀ f ∈ s'.fireflies, inDomain swarmTest.objectiveFunction.domain f ∧
        f.value = swarmTest.objectiveFunction.fn f.x f.y ∧
        f.objectiveFunction = swarmTest.objectiveFunction) ∧
      ∃ m, m ∈ s'.fireflies ∧ (∀ f ∈ s'.fireflies, m.value ≤ f.value) ∧
        ((swarmTest.bestFirefly = none →
            s'.bestFirefly = some (clone ⟨0, 0, 0, 0⟩ m)) ∧
         (∀ b, swarmTest.bestFirefly = some b → m.value < b.value →
            s'.bestFirefly = some (clone ⟨0, 0, 0, 0⟩ m)) ∧
         (∀ b, swarmTest.bestFirefly = some b → ¬ m.value < b.value →
            s'.bestFirefly = swarmTest.bestFirefly)) :=
  ⟨by norm_num [swarmTest],
    initializePop_spec swarmTest rndHalf (by norm_num [swarmTest])
      (fun i => by norm_num [rndHalf])
      (by norm_num [swarmTest, sphere]) (by norm_num [swarmTest, sphere])⟩

/-! ## Claim C3 -/

/-- Claim C3: a `step()` on a non-empty population increments the
generation by exactly one, and its movement pass equals the claim-side
sequential sweep `specSequentialPass`: agents are visited in
population order; for each fixed `i` every `j ≠ i` is visited in
population order; agent `i` moves at once whenever the agent currently
at `j` is brighter (so later comparisons for the same `i` see the
already-updated agent); and an agent that found no brighter neighbour
random-walks with strength `alpha * 0.1` instead. -/
theorem step_sequential (s : Swarm) (u : ℕ → ℝ × ℝ)
    (hne : s.fireflies ≠ []) :
    ∃ s', step s u = some s' ∧ s'.generation = s.generation + 1 ∧
      s'.fireflies = specSequentialPass s.params.beta0 s.params.gamma
        s.params.alpha s.objectiveFunction.domain u s.fireflies := by
  obtain ⟨s', f0, rest, hfs, hstep, hgen, _, _, hff, _⟩ := step_char s u hne
  refine ⟨s', hstep, hgen, ?_⟩
  rw [hff, ← hfs]
  exact congrArg Prod.fst (foldl_outerStep_eq_spec s.params.beta0
    s.params.gamma s.params.alpha s.objectiveFunction.domain u
    (List.range s.fireflies.length) s.fireflies 0)

/-- Witness for `step_sequential` on the concrete test swarm. -/
theorem step_sequential_witness :
    swarmTest.fireflies ≠ [] ∧
    ∃ s', step swarmTest rndPair = some s' ∧
      s'.generation = swarmTest.generation + 1 ∧
      s'.fireflies = specSequentialPass swarmTest.params.beta0
        swarmTest.params.gamma swarmTest.params.alpha
        swarmTest.objectiveFunction.domain rndPair swarmTest.fireflies :=
  ⟨by simp [swarmTest], step_sequential swarmTest rndPair (by simp [swarmTest])⟩

/-! ## Claim C4 -/

/-- Claim C4: across a `step()` the recorded best never regresses.
With a stored best `b`, the step yields a state whose best `b'`
satisfies `b'.value ≤ b.value`; moreover either the stored best is kept
unchanged, or it is replaced by a clone of a population minimum whose
value strictly improves on `b`. -/
theorem step_best_monotone (s : Swarm) (u : ℕ → ℝ × ℝ) (b : Firefly)
    (hne : s.fireflies ≠ []) (hb : s.bestFirefly = some b) :
    ∃ s' b', step s u = some s' ∧ s'.bestFirefly = some b' ∧
      b'.value ≤ b.value ∧
      (s'.bestFirefly = s.bestFirefly ∨
        ∃ m, m ∈ s'.fireflies ∧ (∀ f ∈ s'.fireflies, m.value ≤ f.value) ∧
          b' = clone ⟨0, 0, 0, 0⟩ m ∧ m.value < b.value) := by
  obtain ⟨s', f0, rest, hfs, hstep, hgen, hpar, hobj, hff, hca⟩ :=
    step_char s u hne
  rcases hca with ⟨hbn, _⟩ | ⟨c, hbc, hlt, hbe⟩ | ⟨c, hbc, hnlt, hbe⟩
  · rw [hb] at hbn; cases hbn
  · rw [hb] at hbc
    obtain rfl : b = c := Option.some.inj hbc
    refine ⟨s', clone ⟨0, 0, 0, 0⟩ (popMin f0 (f0 :: rest)), hstep, hbe,
      ?_, ?_⟩
    · rw [clone_value]
      exact le_of_lt hlt
    · right
      refine ⟨popMin f0 (f0 :: rest), ?_, ?_, rfl, hlt⟩
      · rw [hff]
        rcases popMin_mem (f0 :: rest) f0 with h | h
        · rw [h]; exact List.mem_cons_self f0 rest
        · exact h
      · intro f hf
        rw [hff] at hf
        exact popMin_le (f0 :: rest) f0 f hf
  · rw [hb] at hbc
    obtain rfl : b = c := Option.some.inj hbc
    exact ⟨s', b, hstep, by rw [hbe, hb], le_refl _, Or.inl (by rw [hbe])⟩

/-- Witness for `step_best_monotone` on the concrete test swarm. -/
theorem step_best_monotone_witness :
    swarmTest.fireflies ≠ [] ∧ swarmTest.bestFirefly = some bestTest ∧
    ∃ s' b', step swarmTest rndPair = some s' ∧ s'.bestFirefly = some b' ∧
      b'.value ≤ bestTest.value ∧
      (s'.bestFirefly = swarmTest.bestFirefly ∨
        ∃ m, m ∈ s'.fireflies ∧ (∀ f ∈ s'.fireflies, m.value ≤ f.value) ∧
          b' = clone ⟨0, 0, 0, 0⟩ m ∧ m.value < bestTest.value) :=
  ⟨by simp [swarmTest], rfl,
    step_best_monotone swarmTest rndPair bestTest (by simp [swarmTest]) rfl⟩


/-! ## Claim C5 -/

/-- Field-level characterization of `adjustPopulation`: it never
touches `generation`, `bestFirefly`, `params` or the objective
function; shrinking keeps the first `newN` of the stable
value-ascending sort, growing appends fresh random agents. -/
theorem adjustPopulation_char (newN : ℕ) (g : ℕ → InitRand) (t : Swarm) :
    (adjustPopulation newN g t).generation = t.generation ∧
    (adjustPopulation newN g t).bestFirefly = t.bestFirefly ∧
    (adjustPopulation newN g t).params = t.params ∧
    (adjustPopulation newN g t).objectiveFunction = t.objectiveFunction ∧
    (newN < t.fireflies.length →
      (adjustPopulation newN g t).fireflies =
        (t.fireflies.insertionSort fireflyLE).take newN) ∧
    (t.fireflies.length < newN →
      (adjustPopulation newN g t).fireflies = t.fireflies ++
        (List.range (newN - t.fireflies.length)).map
          (fun i => mkRandomFirefly t.objectiveFunction.domain
            t.objectiveFunction (g i))) := by
  simp only [adjustPopulation]
  split_ifs with h1 h2
  · exact ⟨rfl, rfl, rfl, rfl, fun h => absurd h (by omega), fun _ => rfl⟩
  · exact ⟨rfl, rfl, rfl, rfl, fun _ => rfl, fun h => absurd h h1⟩
  · exact ⟨rfl, rfl, rfl, rfl, fun h => absurd h h2, fun h => absurd h h1⟩

/-- Claim C5: `setParams` with a changed `n` resizes the population
without touching `generation` or `bestFirefly`.  Shrinking keeps
exactly the `n` lowest-value agents in ascending order — the retained
prefix of a stable sort (ties keep their original relative order, the
final conjunct of the shrink case) — and growing appends fresh
domain-uniform random agents after the existing ones. -/
theorem setParams_resize (s : Swarm) (m : ℕ) (g : ℕ → InitRand)
    (hm0 : m ≠ 0) (hmn : m ≠ s.params.n) :
    ∃ s', setParams s ⟨some m, none, none, none, none⟩ g = some s' ∧
      s'.generation = s.generation ∧
      s'.bestFirefly = s.bestFirefly ∧
      s'.params = { s.params with n := m } ∧
      (m < s.fireflies.length →
        s'.fireflies = (s.fireflies.insertionSort fireflyLE).take m ∧
        s'.fireflies.length = m ∧
        List.Sorted fireflyLE s'.fireflies ∧
        (∀ a ∈ s'.fireflies,
          ∀ c ∈ (s.fireflies.insertionSort fireflyLE).drop m,
            a.value ≤ c.value) ∧
        (s'.fireflies ++ (s.fireflies.insertionSort fireflyLE).drop m).Perm
          s.fireflies ∧
        (∀ a c : Firefly, List.Sublist [a, c] s.fireflies →
          a.value ≤ c.value →
          List.Sublist [a, c] (s.fireflies.insertionSort fireflyLE))) ∧
      (s.fireflies.length < m →
        s'.fireflies.length = m ∧
        s'.fireflies.take s.fireflies.length = s.fireflies ∧
        s'.fireflies = s.fireflies ++
          (List.range (m - s.fireflies.length)).map
            (fun i => mkRandomFirefly s.objectiveFunction.domain
              s.objectiveFunction (g i))) := by
  have hset : setParams s ⟨some m, none, none, none, none⟩ g =
      some (adjustPopulation m g
        { s with params := { s.params with n := m } }) := by
    simp [setParams, mergeParams, hm0, hmn]
  obtain ⟨hg, hb, hp, ho, hshr, hgrow⟩ := adjustPopulation_char m g
    { s with params := { s.params with n := m } }
  dsimp only at hg hb hp ho hshr hgrow
  refine ⟨adjustPopulation m g { s with params := { s.params with n := m } },
    hset, hg, hb, hp, ?_, ?_⟩
  · intro hlt
    have hff := hshr hlt
    have hsorted : List.Sorted fireflyLE
        (s.fireflies.insertionSort fireflyLE) :=
      List.sorted_insertionSort fireflyLE s.fireflies
    refine ⟨hff, ?_, ?_, ?_, ?_, ?_⟩
    · rw [hff]
      simp [List.length_take, min_eq_left (le_of_lt hlt)]
    · rw [hff]
      exact hsorted.sublist (List.take_sublist m _)
    · intro a ha c hc
      rw [hff] at ha
      have hpw : List.Pairwise fireflyLE
          ((s.fireflies.insertionSort fireflyLE).take m ++
            (s.fireflies.insertionSort fireflyLE).drop m) := by
        rw [List.take_append_drop]
        exact hsorted
      exact (List.pairwise_append.mp hpw).2.2 a ha c hc
    · rw [hff, List.take_append_drop]
      exact List.perm_insertionSort fireflyLE s.fireflies
    · intro a c hsub hle
      exact List.pair_sublist_insertionSort hle hsub
  · intro hgt
    have hff := hgrow hgt
    refine ⟨?_, ?_, hff⟩
    · rw [hff]
      simp only [List.length_append, List.length_map, List.length_range]
      omega
    · rw [hff]
      exact List.take_left s.fireflies _


/-- Witness for `setParams_resize`: shrinking the concrete three-agent
swarm to two agents. -/
theorem setParams_resize_witness :
    (2 : ℕ) ≠ 0 ∧ (2 : ℕ) ≠ swarmTest3.params.n ∧
    ∃ s', setParams swarmTest3 ⟨some 2, none, none, none, none⟩ rndHalf =
        some s' ∧
      s'.generation = swarmTest3.generation ∧
      s'.bestFirefly = swarmTest3.bestFirefly ∧
      s'.params = { swarmTest3.params with n := 2 } ∧
      (2 < swarmTest3.fireflies.length →
        s'.fireflies =
          (swarmTest3.fireflies.insertionSort fireflyLE).take 2 ∧
        s'.fireflies.length = 2 ∧
        List.Sorted fireflyLE s'.fireflies ∧
        (∀ a ∈ s'.fireflies,
          ∀ c ∈ (swarmTest3.fireflies.insertionSort fireflyLE).drop 2,
            a.value ≤ c.value) ∧
        (s'.fireflies ++
          (swarmTest3.fireflies.insertionSort fireflyLE).drop 2).Perm
          swarmTest3.fireflies ∧
        (∀ a c : Firefly, List.Sublist [a, c] swarmTest3.fireflies →
          a.value ≤ c.value →
          List.Sublist [a, c]
            (swarmTest3.fireflies.insertionSort fireflyLE))) ∧
      (swarmTest3.fireflies.length < 2 →
        s'.fireflies.length = 2 ∧
        s'.fireflies.take swarmTest3.fireflies.length =
          swarmTest3.fireflies ∧
        s'.fireflies = swarmTest3.fireflies ++
          (List.range (2 - swarmTest3.fireflies.length)).map
            (fun i => mkRandomFirefly swarmTest3.objectiveFunction.domain
              swarmTest3.objectiveFunction (rndHalf i))) :=
  ⟨by norm_num, by norm_num [swarmTest3],
    setParams_resize swarmTest3 2 rndHalf (by norm_num)
      (by norm_num [swarmTest3])⟩

/-! ## Claim C6 -/

/-- Claim C6: `setParams` with a new registered `functionKey` rebinds
the swarm's objective function, rebinds, clamps and re-evaluates every
agent under the new function, and recomputes `bestFirefly` from the
re-evaluated population alone: whatever best was stored before, the new
best is a clone of a minimum-value member of the current population
(old cross-function history is discarded). -/
theorem setParams_function_change (s : Swarm) (k : String) (F : ObjectiveFn)
    (g : ℕ → InitRand) (hk0 : k ≠ "") (hkp : k ≠ s.params.functionKey)
    (hF : objectiveFunctions k = some F) (hne : s.fireflies ≠ []) :
    ∃ s', setParams s ⟨none, none, none, none, some k⟩ g = some s' ∧
      s'.objectiveFunction = F ∧
      s'.params = { s.params with functionKey := k } ∧
      s'.generation = s.generation ∧
      s'.fireflies = s.fireflies.map (fun f =>
        evaluate (clampToDomain F.domain { f with objectiveFunction := F })) ∧
      (∀ f ∈ s'.fireflies, f.objectiveFunction = F ∧
        f.value = F.fn f.x f.y ∧
        (F.domain.xMin ≤ F.domain.xMax → F.domain.yMin ≤ F.domain.yMax →
          inDomain F.domain f)) ∧
      ∃ m, m ∈ s'.fireflies ∧ (∀ f ∈ s'.fireflies, m.value ≤ f.value) ∧
        s'.bestFirefly = some (clone ⟨0, 0, 0, 0⟩ m) := by
  have hopt : ∀ o : Option Swarm,
      (match o with | none => none | some s2 => some s2) = o := by
    intro o; cases o <;> rfl
  have hset : setParams s ⟨none, none, none, none, some k⟩ g =
      updateBest { s with
        params := { s.params with functionKey := k }
        objectiveFunction := F
        fireflies := s.fireflies.map (fun f =>
          evaluate (clampToDomain F.domain { f with objectiveFunction := F }))
        bestFirefly := none } := by
    simp only [setParams, mergeParams]
    rw [if_pos ⟨hk0, hkp⟩]
    have hkey : (Option.getD (some k) s.params.functionKey) = k := rfl
    rw [hkey, hF]
    rw [hopt]
    rfl
  have hne2 : s.fireflies.map (fun f =>
      evaluate (clampToDomain F.domain { f with objectiveFunction := F })) ≠
      [] := by
    intro h
    exact hne (List.map_eq_nil_iff.mp h)
  obtain ⟨f0, rest, hfs⟩ := List.exists_cons_of_ne_nil hne2
  obtain ⟨s', hup, hff, hgen, hpar, hobj, hca⟩ :=
    updateBest_char { s with
      params := { s.params with functionKey := k }
      objectiveFunction := F
      fireflies := s.fireflies.map (fun f =>
        evaluate (clampToDomain F.domain { f with objectiveFunction := F }))
      bestFirefly := none } f0 rest hfs
  dsimp only at hup hff hgen hpar hobj hca
  have hbest : s'.bestFirefly =
      some (clone ⟨0, 0, 0, 0⟩ (popMin f0 (f0 :: rest))) := by
    rcases hca with ⟨_, hb⟩ | ⟨b, hb, _, _⟩ | ⟨b, hb, _, _⟩
    · exact hb
    · cases hb
    · cases hb
  refine ⟨s', by rw [hset, hup], by rw [hobj], by rw [hpar], by rw [hgen],
    by rw [hff], ?_, ?_⟩
  · intro f hf
    rw [hff] at hf
    obtain ⟨f1, _, rfl⟩ := List.mem_map.mp hf
    refine ⟨rfl, rfl, ?_⟩
    intro hx hy
    simp only [evaluate, clampToDomain, inDomain]
    refine ⟨le_max_left _ _, ?_, le_max_left _ _, ?_⟩
    · exact max_le hx (min_le_left _ _)
    · exact max_le hy (min_le_left _ _)
  · refine ⟨popMin f0 (f0 :: rest), ?_, ?_, hbest⟩
    · rw [hff, hfs]
      rcases popMin_mem (f0 :: rest) f0 with h | h
      · rw [h]; exact List.mem_cons_self f0 rest
      · exact h
    · intro f hf
      rw [hff, hfs] at hf
      exact popMin_le (f0 :: rest) f0 f hf

/-- Witness for `setParams_function_change`: switching the concrete
sphere swarm to the Rastrigin function. -/
theorem setParams_function_change_witness :
    ("rastrigin" : String) ≠ "" ∧
    ("rastrigin" : String) ≠ swarmTest.params.functionKey ∧
    objectiveFunctions "rastrigin" = some rastrigin ∧
    swarmTest.fireflies ≠ [] ∧
    ∃ s', setParams swarmTest ⟨none, none, none, none, some "rastrigin"⟩
        rndHalf = some s' ∧
      s'.objectiveFunction = rastrigin ∧
      s'.params = { swarmTest.params with functionKey := "rastrigin" } ∧
      s'.generation = swarmTest.generation ∧
      s'.fireflies = swarmTest.fireflies.map (fun f =>
        evaluate (clampToDomain rastrigin.domain
          { f with objectiveFunction := rastrigin })) ∧
      (∀ f ∈ s'.fireflies, f.objectiveFunction = rastrigin ∧
        f.value = rastrigin.fn f.x f.y ∧
        (rastrigin.domain.xMin ≤ rastrigin.domain.xMax →
          rastrigin.domain.yMin ≤ rastrigin.domain.yMax →
          inDomain rastrigin.domain f)) ∧
      ∃ m, m ∈ s'.fireflies ∧ (∀ f ∈ s'.fireflies, m.value ≤ f.value) ∧
        s'.bestFirefly = some (clone ⟨0, 0, 0, 0⟩ m) :=
  ⟨by decide, by decide, by rfl, by simp [swarmTest],
    setParams_function_change swarmTest "rastrigin" rastrigin rndHalf
      (by decide) (by decide) (by rfl) (by simp [swarmTest])⟩

end FireflySim
